import Mathlib

/-!
Verification development for the arenalloc repository (a region-based
memory allocator).  The Rust sources under src/arena are shallowly
embedded below:

* machine integers (usize, 64-bit) are modelled as Nat; the only usize
  operations in the source that can actually overflow — the two
  unchecked multiplications, noted with a TODO in the source — are
  modelled with explicit wrapping mod 2^64 (release-mode semantics);
  `usize::saturating_add` is modelled as a saturating Nat addition.
  Address arithmetic (base + offset for offsets inside a live
  allocation) cannot overflow for valid memory and is modelled exactly.
* a bucket (struct BucketImpl: a cursor Cell<usize> named index, plus a
  byte slice data) is a record of its cursor, the address of its data
  field, and the length of the data slice; interior mutability (Cell)
  becomes explicit state passing, with each operation returning the
  bucket state it leaves behind.
* fallible operations return Except; a Rust panic (unwrap / expect /
  out-of-bounds index / failed assert) is modelled as Option.none at
  the outermost level.
* success of the system allocator (alloc_zeroed returning non-null) is
  an explicit Boolean parameter allocOk, and the address at which a new
  allocation lands is an explicit parameter, since both are chosen by
  the environment, not the program.
-/

deriving instance DecidableEq for Except

namespace Arenalloc

/-- Largest value of a 64-bit usize. -/
def USIZE_MAX : Nat := 2 ^ 64 - 1

/-- Wrapping (release-mode) usize multiplication. -/
def wrapMul (a b : Nat) : Nat := a * b % 2 ^ 64

/-- Model of usize::saturating_add. -/
def saturatingAdd (a b : Nat) : Nat := min (a + b) USIZE_MAX

/-- Represents an insufficient capacity within a Bucket
(struct CapacityError in src/arena/bucket.rs). -/
inductive CapacityError where
  | mk
deriving DecidableEq, Repr

/-- Raw allocation failure (struct RawAllocError in src/arena/bucket.rs). -/
inductive RawAllocError where
  | mk
deriving DecidableEq, Repr

/-- Layout computation failure (core::alloc::LayoutErr). -/
inductive LayoutErr where
  | mk
deriving DecidableEq, Repr

/-- State of one BucketImpl (src/arena/bucket.rs).  The source struct is
a header cell `index` followed by an unsized byte slice `data`; here
`base` is the runtime address `data.as_ptr() as usize` (chosen by the
system allocator, hence a model parameter) and `capacity` is
`data.len()`. -/
structure BucketState where
  /-- An index into the data field: always indexes the next free byte
  (field `index: Cell<usize>` of BucketImpl). -/
  index : Nat
  /-- The address of the first byte of `data` (model parameter). -/
  base : Nat
  /-- Length of the `data` slice. -/
  capacity : Nat
deriving DecidableEq, Repr

namespace BucketImpl

/-- BucketImpl::capacity: `self.data.len()`. -/
def capacity (b : BucketState) : Nat := b.capacity

/-- BucketImpl::is_full: `self.index.get() == self.capacity()`. -/
def is_full (b : BucketState) : Bool := b.index == b.capacity

/-- BucketImpl::data_start_address:
`self.data.as_ptr() as usize + self.index.get()`. -/
def data_start_address (b : BucketState) : Nat := b.base + b.index

/-- Helper `next_power_of` nested inside BucketImpl::align_index_for:
rounds `n` up to the next multiple of `pow`.  The source computes
`[n, n + (pow - remain)][(remain != 0) as usize]`. -/
def next_power_of (n pow : Nat) : Nat :=
  let remain := n % pow
  if remain ≠ 0 then n + (pow - remain) else n

/-- BucketImpl::align_index_for::<T>, with `alignT = mem::align_of::<T>()`:
the next index whose absolute address is correctly aligned for T. -/
def align_index_for (alignT : Nat) (b : BucketState) : Nat :=
  let start_addr := data_start_address b
  let aligned_start := next_power_of start_addr alignT
  aligned_start - b.base

/-- BucketImpl::malloc::<T>, with `sizeT = mem::size_of::<T>()`,
`alignT = mem::align_of::<T>()` and `size` the requested element count.
Returns the result (Ok with the byte offset of the returned pointer
into `data`, so that the pointer's address is `b.base + offset`, or Err
CapacityError) together with the bucket state left behind.  The source's
`self.data.get(start..)` succeeds iff `start ≤ data.len()` and the inner
`slice.get(..total)` succeeds iff `total ≤ data.len() - start`; on the
error path the source touches nothing, so the input state is returned.
The source's `assert!(ptr as usize % align == 0)` never fires (theorem
align_index_for_aligned below), so it is not modelled as a panic. -/
def malloc (sizeT alignT size : Nat) (b : BucketState) :
    Except CapacityError Nat × BucketState :=
  let start := align_index_for alignT b
  let total_alloc_size := wrapMul sizeT size
  if start ≤ b.capacity then
    if total_alloc_size ≤ b.capacity - start then
      let e := saturatingAdd start total_alloc_size
      (Except.ok start, { b with index := e })
    else
      (Except.error CapacityError.mk, b)
  else
    (Except.error CapacityError.mk, b)

/-- Layout of the BucketImpl header, a Cell<usize>: size 8, align 8 on a
64-bit target (BucketImpl::header_layout).  BucketImpl::data_layout for
`size` bytes of Cell<MaybeUninit<u8>> is (size, align 1) and never
fails for a valid usize.  BucketImpl::layout_from_size extends the
header with the data layout (offset 8, total 8 + size, align 8), then
pads to alignment; per the Layout rules it fails iff the padded total
would overflow the usize-based bound.  Returns the total layout size. -/
def layout_from_size (size : Nat) : Except LayoutErr Nat :=
  if 8 + size ≤ USIZE_MAX - 7 then
    Except.ok (next_power_of (8 + size) 8)
  else
    Except.error LayoutErr.mk

end BucketImpl

namespace Bucket

/-- Bucket::new (src/arena/bucket.rs): computes the layout for `size`
bytes (mapping a layout error to RawAllocError), asks the system
allocator for zeroed memory (`allocOk` tells whether that succeeds;
`base` is where the data field lands) and returns the fresh bucket.
Zeroed memory means the cursor starts at 0. -/
def new (allocOk : Bool) (base size : Nat) :
    Except RawAllocError BucketState :=
  match BucketImpl.layout_from_size size with
  | Except.error _ => Except.error RawAllocError.mk
  | Except.ok _ =>
    if allocOk then
      Except.ok { index := 0, base := base, capacity := size }
    else
      Except.error RawAllocError.mk

end Bucket

/-- State of an Arena (src/arena/arena.rs): an index into the currently
used bucket (field `index: Cell<usize>`) and the buckets
(field `buckets: RefCell<Vec<Bucket>>`). -/
structure ArenaState where
  /-- An index into the current used bucket. -/
  index : Nat
  /-- The buckets in the Arena. -/
  buckets : List BucketState
deriving DecidableEq, Repr

namespace Arena

/-- Arena::bucket_size:
`self.buckets.borrow().get(index).map(|b| b.capacity()).unwrap_or(512)`. -/
def bucket_size (a : ArenaState) : Nat :=
  match a.buckets.get? a.index with
  | some b => b.capacity
  | none => 512

/-- Arena::last_bucket.  The source returns None when the bucket vector
is empty, and otherwise `Some(&buckets[index])`, where the indexing
panics if `index` is out of bounds; the outer Option below is the panic
(none = panic), the inner Option is the source's return value. -/
def last_bucket (a : ArenaState) : Option (Option BucketState) :=
  if a.buckets.isEmpty then
    some none
  else
    match a.buckets.get? a.index with
    | some b => some (some b)
    | none => none

/-- Arena::grow: pushes `Bucket::new(self.bucket_size() * 2).unwrap()`
and advances the index.  The unwrap panics (none) when Bucket::new
fails; `newBase` is the address where the new bucket's data lands. -/
def grow (allocOk : Bool) (newBase : Nat) (a : ArenaState) :
    Option ArenaState :=
  let len := bucket_size a
  match Bucket.new allocOk newBase (len * 2) with
  | Except.error _ => none
  | Except.ok b =>
    some { index := a.index + 1, buckets := a.buckets ++ [b] }

/-- Tail of Arena::malloc after `last` has been fetched: try
`last.malloc(size)`; on Ok return the pointer (modelled as the absolute
address `b.base + offset`), writing the mutated bucket state back at
the active index (the source mutates it in place through a Cell);
on Err, grow and retry once against the bucket the new `last_bucket`
returns, whose `.unwrap()` panics (none) if it returns None.  A failed
bucket malloc leaves the bucket untouched (the source only writes the
cursor on the success path), so the error branch continues from the
unchanged arena state `a`. -/
def mallocAt (allocOk : Bool) (newBase sizeT alignT size : Nat)
    (a : ArenaState) (b : BucketState) :
    Option (Except CapacityError Nat × ArenaState) :=
  match BucketImpl.malloc sizeT alignT size b with
  | (Except.ok off, b') =>
    some (Except.ok (b.base + off),
          { index := a.index, buckets := a.buckets.set a.index b' })
  | (Except.error _, _) =>
    match grow allocOk newBase a with
    | none => none
    | some a1 =>
      match last_bucket a1 with
      | none => none
      | some none => none
      | some (some b2) =>
        let res := BucketImpl.malloc sizeT alignT size b2
        some (Except.map (fun off => b2.base + off) res.1,
              { index := a1.index, buckets := a1.buckets.set a1.index res.2 })

/-- Arena::malloc::<T>: fetch the active bucket (growing first when no
bucket exists yet — in that branch the source's
`last_bucket().expect("Unreachable")` panics if the fetch still yields
None), then delegate to mallocAt.  none models a panic. -/
def malloc (allocOk : Bool) (newBase sizeT alignT size : Nat)
    (a : ArenaState) : Option (Except CapacityError Nat × ArenaState) :=
  match last_bucket a with
  | none => none
  | some (some b) => mallocAt allocOk newBase sizeT alignT size a b
  | some none =>
    match grow allocOk newBase a with
    | none => none
    | some a1 =>
      match last_bucket a1 with
      | none => none
      | some none => none
      | some (some b) => mallocAt allocOk newBase sizeT alignT size a1 b

/-- Arena::new: one eagerly allocated bucket of 512 bytes, active index
0; the `.unwrap()` panics (none) if that allocation fails. -/
def new (allocOk : Bool) (base : Nat) : Option ArenaState :=
  match Bucket.new allocOk base 512 with
  | Except.ok b => some { index := 0, buckets := [b] }
  | Except.error _ => none

end Arena

/-- Runs a list of bucket malloc requests (sizeT, alignT, count) on one
bucket, recording each returned region as the half-open interval from
the returned offset to the cursor the call leaves behind; stops with
none as soon as one request fails ("a sequence of successful malloc
calls"). -/
def mallocRun (b : BucketState) :
    List (Nat × Nat × Nat) → Option (List (Nat × Nat) × BucketState)
  | [] => some ([], b)
  | (sizeT, alignT, count) :: rest =>
    match BucketImpl.malloc sizeT alignT count b with
    | (Except.ok off, b') =>
      match mallocRun b' rest with
      | some (rs, bf) => some ((off, b'.index) :: rs, bf)
      | none => none
    | (Except.error _, _) => none

/-- Runs a list of arena malloc requests (newBase, sizeT, alignT,
count) against an arena, propagating the state across calls;
none models a panic in some call. -/
def arenaRun (allocOk : Bool) :
    List (Nat × Nat × Nat × Nat) → ArenaState → Option ArenaState
  | [], a => some a
  | (newBase, sizeT, alignT, count) :: rest, a =>
    match Arena.malloc allocOk newBase sizeT alignT count a with
    | some (_, a') => arenaRun allocOk rest a'
    | none => none

/-! Helper lemmas -/

/-- Writing back the element a list already holds is a no-op. -/
theorem list_set_self {α : Type} (l : List α) (n : Nat) (b : α)
    (h : l.get? n = some b) : l.set n b = l := by
  apply List.ext_get?
  intro i
  simp only [List.get?_eq_getElem?] at h ⊢
  by_cases hi : n = i
  · subst hi
    rw [List.getElem?_set_eq_of_lt]
    · exact h.symm
    · exact (List.getElem?_eq_some.mp h).1
  · rw [List.getElem?_set_ne hi]

namespace BucketImpl

/-- Rounding up never decreases the argument. -/
theorem le_next_power_of (n pow : Nat) : n ≤ next_power_of n pow := by
  unfold next_power_of
  by_cases h : n % pow = 0 <;> simp [h]

/-- The rounded value is a multiple of pow. -/
theorem dvd_next_power_of (n : Nat) {pow : Nat} (hp : 0 < pow) :
    pow ∣ next_power_of n pow := by
  unfold next_power_of
  by_cases h : n % pow = 0
  · simpa [h] using Nat.dvd_of_mod_eq_zero h
  · simp only [h, ne_eq, not_false_eq_true, if_true]
    refine ⟨n / pow + 1, ?_⟩
    have hdm := Nat.div_add_mod n pow
    have hlt : n % pow < pow := Nat.mod_lt _ hp
    rw [Nat.mul_succ]
    omega

/-- next_power_of returns the least multiple of pow that is ≥ n. -/
theorem next_power_of_le {n m pow : Nat} (hp : 0 < pow) (hnm : n ≤ m)
    (hd : pow ∣ m) : next_power_of n pow ≤ m := by
  unfold next_power_of
  by_cases h : n % pow = 0
  · simpa [h] using hnm
  · simp only [h, ne_eq, not_false_eq_true, if_true]
    obtain ⟨q, rfl⟩ := hd
    have hdm := Nat.div_add_mod n pow
    have hlt : n % pow < pow := Nat.mod_lt _ hp
    have h1 : pow * (n / pow) < pow * q := by omega
    have h2 : n / pow < q := Nat.lt_of_mul_lt_mul_left h1
    have h3 : pow * (n / pow + 1) ≤ pow * q := Nat.mul_le_mul_left pow h2
    rw [Nat.mul_succ] at h3
    omega

/-- The aligned index never lies before the cursor. -/
theorem align_index_for_ge (alignT : Nat) (b : BucketState) :
    b.index ≤ align_index_for alignT b := by
  simp only [align_index_for, data_start_address]
  have h := le_next_power_of (b.base + b.index) alignT
  omega

/-- The absolute address of the aligned index (bucket base plus offset)
is a multiple of the alignment: this is exactly the assertion
`assert!(ptr as usize % align == 0)` in BucketImpl::malloc. -/
theorem align_index_for_aligned {alignT : Nat} (hp : 0 < alignT)
    (b : BucketState) :
    (b.base + align_index_for alignT b) % alignT = 0 := by
  simp only [align_index_for, data_start_address]
  have hge := le_next_power_of (b.base + b.index) alignT
  obtain ⟨q, hq⟩ := dvd_next_power_of (b.base + b.index) hp
  have heq : b.base + (next_power_of (b.base + b.index) alignT - b.base) =
      next_power_of (b.base + b.index) alignT := by omega
  rw [heq, hq]
  exact Nat.mul_mod_right alignT q


/-- Minimality: the aligned index is the least offset at or after the
cursor whose absolute address is a multiple of the alignment. -/
theorem align_index_for_min {alignT : Nat} (hp : 0 < alignT)
    (b : BucketState) (k : Nat) (hk : b.index ≤ k)
    (ha : (b.base + k) % alignT = 0) :
    align_index_for alignT b ≤ k := by
  simp only [align_index_for, data_start_address]
  have h := next_power_of_le (n := b.base + b.index) (m := b.base + k) hp
    (by omega) (Nat.dvd_of_mod_eq_zero ha)
  omega

/-- Success characterization of BucketImpl::malloc. -/
theorem malloc_eq_ok {sizeT alignT size : Nat} {b : BucketState}
    (h1 : align_index_for alignT b ≤ b.capacity)
    (h2 : wrapMul sizeT size ≤ b.capacity - align_index_for alignT b) :
    malloc sizeT alignT size b =
      (Except.ok (align_index_for alignT b),
       { b with index :=
           saturatingAdd (align_index_for alignT b) (wrapMul sizeT size) }) := by
  simp [malloc, h1, h2]

/-- Failure characterization of BucketImpl::malloc: the bucket is
returned unchanged. -/
theorem malloc_eq_error {sizeT alignT size : Nat} {b : BucketState}
    (h : ¬(align_index_for alignT b ≤ b.capacity ∧
           wrapMul sizeT size ≤ b.capacity - align_index_for alignT b)) :
    malloc sizeT alignT size b = (Except.error CapacityError.mk, b) := by
  by_cases h1 : align_index_for alignT b ≤ b.capacity
  · have h2 : ¬wrapMul sizeT size ≤ b.capacity - align_index_for alignT b := by
      tauto
    simp [malloc, h1, h2]
  · simp [malloc, h1]

/-- Inversion of a successful BucketImpl::malloc. -/
theorem malloc_ok_inv {sizeT alignT size off : Nat} {b b' : BucketState}
    (h : malloc sizeT alignT size b = (Except.ok off, b')) :
    off = align_index_for alignT b ∧
    align_index_for alignT b ≤ b.capacity ∧
    wrapMul sizeT size ≤ b.capacity - align_index_for alignT b ∧
    b' = { b with index := saturatingAdd off (wrapMul sizeT size) } := by
  by_cases h1 : align_index_for alignT b ≤ b.capacity
  · by_cases h2 : wrapMul sizeT size ≤ b.capacity - align_index_for alignT b
    · rw [malloc_eq_ok h1 h2] at h
      injection h with h3 h4
      injection h3 with h5
      refine ⟨h5.symm, h1, h2, ?_⟩
      rw [← h5]
      exact h4.symm
    · rw [malloc_eq_error (by tauto)] at h
      simp at h
  · rw [malloc_eq_error (by tauto)] at h
    simp at h

/-- Failure of BucketImpl::malloc never touches the bucket: full pair
form. -/
theorem malloc_error_inv {sizeT alignT size : Nat} {b b' : BucketState}
    {e : CapacityError}
    (h : malloc sizeT alignT size b = (Except.error e, b')) : b' = b := by
  by_cases h1 : align_index_for alignT b ≤ b.capacity
  · by_cases h2 : wrapMul sizeT size ≤ b.capacity - align_index_for alignT b
    · rw [malloc_eq_ok h1 h2] at h
      exact absurd (congrArg Prod.fst h) (by simp)
    · rw [malloc_eq_error (by tauto)] at h
      exact (congrArg Prod.snd h).symm
  · rw [malloc_eq_error (by tauto)] at h
    exact (congrArg Prod.snd h).symm

end BucketImpl

/-- Numeric value of the usize bound. -/
theorem USIZE_MAX_eq : USIZE_MAX = 18446744073709551615 := by
  norm_num [USIZE_MAX]

/-- Saturating addition below the bound is plain addition. -/
theorem saturatingAdd_eq {a b : Nat} (h : a + b ≤ USIZE_MAX) :
    saturatingAdd a b = a + b := by
  simp [saturatingAdd, Nat.min_eq_left h]

/-- Wrapping multiplication below the bound is plain multiplication. -/
theorem wrapMul_eq {a b : Nat} (h : a * b < 2 ^ 64) :
    wrapMul a b = a * b := Nat.mod_eq_of_lt h

namespace BucketImpl

/-- One successful malloc step: bucket geometry is preserved, the
returned offset lies at or after the old cursor, and the new cursor is
at the end of the returned region, within capacity. -/
theorem malloc_ok_step {sizeT alignT size off : Nat} {b b' : BucketState}
    (hcap : b.capacity ≤ USIZE_MAX)
    (h : malloc sizeT alignT size b = (Except.ok off, b')) :
    b'.base = b.base ∧ b'.capacity = b.capacity ∧
    b.index ≤ off ∧ off ≤ b'.index ∧ b'.index ≤ b.capacity := by
  obtain ⟨hoff, h1, h2, hb'⟩ := malloc_ok_inv h
  have hge : b.index ≤ align_index_for alignT b := align_index_for_ge alignT b
  have hsum : off + wrapMul sizeT size ≤ b.capacity := by omega
  have hsat : saturatingAdd off (wrapMul sizeT size) = off + wrapMul sizeT size :=
    saturatingAdd_eq (by omega)
  subst hb'
  refine ⟨rfl, rfl, by omega, ?_, ?_⟩
  · simp [hsat]
  · simp [hsat]
    omega

end BucketImpl

/-- C1: for every sequence of successful Bucket malloc calls, the
bucket's cursor (index) is monotonically non-decreasing and always
satisfies 0 ≤ cursor ≤ capacity, and no two regions returned by the
same bucket overlap: a later region never starts before an earlier
region ends.  Regions are the half-open offset intervals issued by the
calls; capacity and base never change.  Stated for any bucket whose
capacity fits a usize and whose cursor starts within capacity. -/
theorem claim_C1 :
    ∀ (reqs : List (Nat × Nat × Nat)) (b : BucketState)
      (rs : List (Nat × Nat)) (bf : BucketState),
      b.capacity ≤ USIZE_MAX → b.index ≤ b.capacity →
      mallocRun b reqs = some (rs, bf) →
      bf.capacity = b.capacity ∧ b.index ≤ bf.index ∧
      bf.index ≤ b.capacity ∧
      (∀ r ∈ rs, b.index ≤ r.1 ∧ r.1 ≤ r.2 ∧ r.2 ≤ bf.index) ∧
      List.Pairwise (fun r s => r.2 ≤ s.1) rs
  | [], b, rs, bf, hcap, hidx, hrun => by
    simp only [mallocRun, Option.some.injEq, Prod.mk.injEq] at hrun
    obtain ⟨hrs, hbf⟩ := hrun
    subst hrs
    subst hbf
    simp [hidx]
  | (sizeT, alignT, count) :: rest, b, rs, bf, hcap, hidx, hrun => by
    rw [mallocRun] at hrun
    split at hrun
    case _ off b' hm =>
      split at hrun
      case _ rs' bf' hrec =>
        simp only [Option.some.injEq, Prod.mk.injEq] at hrun
        obtain ⟨hrs, hbf⟩ := hrun
        subst hrs
        subst hbf
        obtain ⟨hbase, hcap', hle1, hle2, hle3⟩ :=
          BucketImpl.malloc_ok_step hcap hm
        obtain ⟨ihcap, ihmono, ihbound, ihmem, ihpw⟩ :=
          claim_C1 rest b' rs' bf'
            (by rw [hcap']; exact hcap) (by omega) hrec
        refine ⟨by omega, by omega, by omega, ?_, ?_⟩
        · intro r hr
          rcases List.mem_cons.mp hr with hr | hr
          · subst hr
            refine ⟨hle1, hle2, ?_⟩
            simpa using ihmono
          · have h := ihmem r hr
            exact ⟨by omega, h.2.1, h.2.2⟩
        · rw [List.pairwise_cons]
          refine ⟨fun s hs => ?_, ihpw⟩
          have h := (ihmem s hs).1
          simpa using h
      case _ hrec => exact absurd hrun (by simp)
    case _ e b' hm => exact absurd hrun (by simp)

/-- C1 witness: a u8 then a u64 allocated from a 16-byte bucket based
at address 0 occupy offsets [0,1) and [8,16), which do not overlap. -/
theorem claim_C1_witness :
    List.Pairwise (fun r s : Nat × Nat => r.2 ≤ s.1) [(0, 1), (8, 16)] ∧
    (⟨0, 0, 16⟩ : BucketState).index ≤ (⟨16, 0, 16⟩ : BucketState).index :=
  have h := claim_C1 [(1, 1, 1), (8, 8, 1)] ⟨0, 0, 16⟩ [(0, 1), (8, 16)]
    ⟨16, 0, 16⟩ (by decide) (by decide) (by decide)
  ⟨h.2.2.2.2, h.2.1⟩

/-- C2: for every type T (any positive alignment) and every successful
Bucket malloc, the returned pointer's absolute address, bucket base plus
offset, is a multiple of the alignment — the internal alignment
assertion never fires — and the offset is the smallest offset at or
after the cursor whose absolute address satisfies the alignment: the
implementation aligns the address, not only the offset. -/
theorem claim_C2 (sizeT alignT size off : Nat) (b b' : BucketState)
    (hp : 0 < alignT)
    (h : BucketImpl.malloc sizeT alignT size b = (Except.ok off, b')) :
    (b.base + off) % alignT = 0 ∧
    b.index ≤ off ∧
    (∀ k, b.index ≤ k → (b.base + k) % alignT = 0 → off ≤ k) := by
  obtain ⟨hoff, -, -, -⟩ := BucketImpl.malloc_ok_inv h
  subst hoff
  exact ⟨BucketImpl.align_index_for_aligned hp b,
    BucketImpl.align_index_for_ge alignT b,
    fun k hk ha => BucketImpl.align_index_for_min hp b k hk ha⟩

/-- C2 witness: allocating two u32 after one u8 in a 12-byte bucket
based at address 0 returns offset 4, whose address 0 + 4 is 4-aligned
and is the least aligned offset at or after cursor 1. -/
theorem claim_C2_witness :
    ((⟨1, 0, 12⟩ : BucketState).base + 4) % 4 = 0 ∧
    (⟨1, 0, 12⟩ : BucketState).index ≤ 4 :=
  have h := claim_C2 4 4 2 4 ⟨1, 0, 12⟩ ⟨12, 0, 12⟩ (by decide) (by decide)
  ⟨h.1, h.2.1⟩

/-- C5: every Bucket malloc call that fails with CapacityError leaves
the bucket's cursor (indeed the whole bucket state) unchanged — a
failed allocation has no observable side effect. -/
theorem claim_C5 (sizeT alignT size : Nat) (b : BucketState)
    (e : CapacityError)
    (h : (BucketImpl.malloc sizeT alignT size b).1 = Except.error e) :
    (BucketImpl.malloc sizeT alignT size b).2 = b := by
  rcases hm : BucketImpl.malloc sizeT alignT size b with ⟨r, b'⟩
  rw [hm] at h
  simp only at h
  subst h
  simpa using BucketImpl.malloc_error_inv hm

/-- C5 witness: a 1-byte request on a full 12-byte bucket fails and the
bucket is unchanged. -/
theorem claim_C5_witness :
    (BucketImpl.malloc 1 1 1 ⟨12, 0, 12⟩).2 = ⟨12, 0, 12⟩ :=
  claim_C5 1 1 1 ⟨12, 0, 12⟩ CapacityError.mk (by decide)

/-- C6: every successful Bucket malloc sets the cursor to
alignedOffset + requiredBytes with requiredBytes = size_of(T) * count,
and the returned pointer designates offset alignedOffset, the start of
the region [alignedOffset, alignedOffset + requiredBytes) — stated for
requests whose byte count does not overflow a usize and buckets whose
capacity fits a usize. -/
theorem claim_C6 (sizeT alignT size off : Nat) (b b' : BucketState)
    (hcap : b.capacity ≤ USIZE_MAX)
    (hof : sizeT * size < 2 ^ 64)
    (h : BucketImpl.malloc sizeT alignT size b = (Except.ok off, b')) :
    off = BucketImpl.align_index_for alignT b ∧
    b'.index = off + sizeT * size := by
  obtain ⟨hoff, h1, h2, hb'⟩ := BucketImpl.malloc_ok_inv h
  have hw : wrapMul sizeT size = sizeT * size := wrapMul_eq hof
  have hsat : saturatingAdd off (wrapMul sizeT size) =
      off + wrapMul sizeT size := saturatingAdd_eq (by omega)
  subst hb'
  refine ⟨hoff, ?_⟩
  show saturatingAdd off (wrapMul sizeT size) = off + sizeT * size
  rw [hsat, hw]

/-- C6 witness: two u32 allocated at cursor 1 of a 12-byte bucket based
at 0 land at offset 4 and leave the cursor at 4 + 4 * 2 = 12. -/
theorem claim_C6_witness :
    (⟨12, 0, 12⟩ : BucketState).index = 4 + 4 * 2 :=
  (claim_C6 4 4 2 4 ⟨1, 0, 12⟩ ⟨12, 0, 12⟩ (by decide) (by decide)
    (by decide)).2

/-- C7 counterexample: the claim "malloc of count 0 never fails due to
capacity" is false.  A fresh 4-byte bucket whose data starts at address
8 (an address the system allocator may legitimately return, since the
layout only guarantees 8-byte alignment) rejects malloc::<T>(0) for a
16-byte-aligned T with CapacityError: the smallest 16-aligned address
at or past 8 is 16, i.e. offset 8, which exceeds the capacity 4. -/
theorem claim_C7_counterexample :
    (BucketImpl.malloc 16 16 0 ⟨0, 8, 4⟩).1 = Except.error CapacityError.mk := by
  decide

/-- C7 (amended): malloc of count 0 never moves the cursor beyond the
alignment offset required for T: when the aligned offset fits within
capacity the call succeeds and sets the cursor exactly to the aligned
offset; when the aligned offset exceeds capacity the call fails with
CapacityError (so a zero-count request can still fail due to capacity)
and leaves the bucket unchanged. -/
theorem claim_C7 (sizeT alignT : Nat) (b : BucketState)
    (hcap : b.capacity ≤ USIZE_MAX) :
    (BucketImpl.align_index_for alignT b ≤ b.capacity →
      BucketImpl.malloc sizeT alignT 0 b =
        (Except.ok (BucketImpl.align_index_for alignT b),
         { b with index := BucketImpl.align_index_for alignT b })) ∧
    (b.capacity < BucketImpl.align_index_for alignT b →
      BucketImpl.malloc sizeT alignT 0 b =
        (Except.error CapacityError.mk, b)) := by
  have hw : wrapMul sizeT 0 = 0 := by simp [wrapMul]
  constructor
  · intro h1
    rw [BucketImpl.malloc_eq_ok h1 (by omega)]
    have hsat : saturatingAdd (BucketImpl.align_index_for alignT b)
        (wrapMul sizeT 0) = BucketImpl.align_index_for alignT b := by
      rw [hw]
      simpa using saturatingAdd_eq (a := BucketImpl.align_index_for alignT b)
        (b := 0) (by omega)
    rw [hsat]
  · intro h2
    exact BucketImpl.malloc_eq_error (by omega)

/-- C7 witness: on a 12-byte bucket based at 0 with cursor 1, a
zero-count u32 request succeeds and moves the cursor only to the
4-aligned offset 4; and the counterexample bucket is left unchanged on
its zero-count failure. -/
theorem claim_C7_witness :
    BucketImpl.malloc 4 4 0 ⟨1, 0, 12⟩ = (Except.ok 4, ⟨4, 0, 12⟩) := by
  have h := (claim_C7 4 4 ⟨1, 0, 12⟩ (by decide)).1 (by decide)
  simpa using h

namespace BucketImpl

/-- A malloc whose result component is an error is exactly the error
pair with the bucket unchanged. -/
theorem malloc_fst_error {sizeT alignT size : Nat} {b : BucketState}
    {e : CapacityError}
    (h : (malloc sizeT alignT size b).1 = Except.error e) :
    malloc sizeT alignT size b = (Except.error CapacityError.mk, b) := by
  rcases hm : malloc sizeT alignT size b with ⟨r, b'⟩
  rw [hm] at h
  simp only at h
  subst h
  rw [malloc_error_inv hm]

end BucketImpl

namespace Bucket

/-- Bucket::new never succeeds when the raw allocation fails: the
failure surfaces as the typed RawAllocError. -/
theorem new_false (base size : Nat) :
    new false base size = Except.error RawAllocError.mk := by
  unfold new
  cases h : BucketImpl.layout_from_size size <;> simp

/-- Inversion of a successful Bucket::new: the bucket has cursor 0 (the
memory is zeroed), the requested capacity, and the base the allocator
returned; and the allocation must have succeeded. -/
theorem new_ok_inv {allocOk : Bool} {base size : Nat} {bNew : BucketState}
    (h : new allocOk base size = Except.ok bNew) :
    bNew = ⟨0, base, size⟩ ∧ allocOk = true := by
  unfold new at h
  cases hl : BucketImpl.layout_from_size size <;> rw [hl] at h
  · simp at h
  · cases allocOk
    · simp at h
    · simp at h
      exact ⟨h.symm, rfl⟩

end Bucket

namespace Arena

/-- bucket_size of an arena whose active index holds a bucket. -/
theorem bucket_size_eq {a : ArenaState} {b : BucketState}
    (hb : a.buckets.get? a.index = some b) :
    bucket_size a = b.capacity := by
  rw [List.get?_eq_getElem?] at hb
  simp [bucket_size, hb]

/-- last_bucket of an arena whose active index holds a bucket. -/
theorem last_bucket_some {a : ArenaState} {b : BucketState}
    (hb : a.buckets.get? a.index = some b) :
    last_bucket a = some (some b) := by
  have hne : a.buckets.isEmpty = false := by
    cases hl : a.buckets with
    | nil => rw [hl] at hb; simp at hb
    | cons x xs => simp
  rw [List.get?_eq_getElem?] at hb
  simp [last_bucket, hne, hb]

/-- grow on an arena with a valid active bucket and a representable
doubled layout: appends one bucket of twice the active capacity and
advances the index. -/
theorem grow_eq {a : ArenaState} {b : BucketState} {newBase : Nat}
    (hb : a.buckets.get? a.index = some b)
    (hlay : 8 + b.capacity * 2 ≤ USIZE_MAX - 7) :
    grow true newBase a =
      some ⟨a.index + 1, a.buckets ++ [⟨0, newBase, b.capacity * 2⟩]⟩ := by
  simp [grow, bucket_size_eq hb, Bucket.new, BucketImpl.layout_from_size, hlay]

/-- grow panics (unwrap of Err) whenever the raw allocation fails. -/
theorem grow_false (newBase : Nat) (a : ArenaState) :
    grow false newBase a = none := by
  simp [grow, Bucket.new_false]

/-- Inversion of a successful grow. -/
theorem grow_inv {allocOk : Bool} {newBase : Nat} {a a1 : ArenaState}
    (h : grow allocOk newBase a = some a1) :
    Bucket.new allocOk newBase (bucket_size a * 2) =
      Except.ok ⟨0, newBase, bucket_size a * 2⟩ ∧
    a1 = ⟨a.index + 1, a.buckets ++ [⟨0, newBase, bucket_size a * 2⟩]⟩ := by
  simp only [grow] at h
  cases hn : Bucket.new allocOk newBase (bucket_size a * 2) <;> rw [hn] at h
  · simp at h
  · simp only [Option.some.injEq] at h
    obtain ⟨hb0, -⟩ := Bucket.new_ok_inv hn
    subst hb0
    exact ⟨rfl, h.symm⟩

end Arena

namespace Arena

/-- Arena::malloc when the active bucket exists and its malloc
succeeds: no growth, the pointer is the active bucket's base plus the
returned offset, and only the active bucket's state changes. -/
theorem malloc_ok_case {allocOk : Bool} {newBase sizeT alignT size off : Nat}
    {a : ArenaState} {b b' : BucketState}
    (hb : a.buckets.get? a.index = some b)
    (hok : BucketImpl.malloc sizeT alignT size b = (Except.ok off, b')) :
    malloc allocOk newBase sizeT alignT size a =
      some (Except.ok (b.base + off),
            (⟨a.index, a.buckets.set a.index b'⟩ : ArenaState)) := by
  simp [malloc, last_bucket_some hb, mallocAt, hok]

/-- Arena::malloc when the active bucket exists, is the last bucket,
its malloc fails with CapacityError, and the doubled layout is
representable: the arena grows exactly once and retries exactly once
against the freshly appended bucket, whose malloc result (pointer on
success, CapacityError on failure) is returned unchanged. -/
theorem malloc_grow_case {newBase sizeT alignT size : Nat}
    {a : ArenaState} {b : BucketState}
    (hb : a.buckets.get? a.index = some b)
    (hlast : a.index + 1 = a.buckets.length)
    (hfail : (BucketImpl.malloc sizeT alignT size b).1 =
      Except.error CapacityError.mk)
    (hlay : 8 + b.capacity * 2 ≤ USIZE_MAX - 7) :
    malloc true newBase sizeT alignT size a =
      some (Except.map (fun off => newBase + off)
              (BucketImpl.malloc sizeT alignT size
                ⟨0, newBase, b.capacity * 2⟩).1,
            (⟨a.index + 1,
              (a.buckets ++ [(⟨0, newBase, b.capacity * 2⟩ : BucketState)]).set
                (a.index + 1)
                (BucketImpl.malloc sizeT alignT size
                  (⟨0, newBase, b.capacity * 2⟩ : BucketState)).2⟩ :
              ArenaState)) := by
  have hm := BucketImpl.malloc_fst_error hfail
  have hget2 : (a.buckets ++
        [(⟨0, newBase, b.capacity * 2⟩ : BucketState)]).get? (a.index + 1) =
      some ⟨0, newBase, b.capacity * 2⟩ := by
    rw [List.get?_eq_getElem?, hlast]
    exact List.getElem?_concat_length _ _
  have hlb2 := last_bucket_some
    (a := ⟨a.index + 1,
           a.buckets ++ [(⟨0, newBase, b.capacity * 2⟩ : BucketState)]⟩) hget2
  simp [malloc, last_bucket_some hb, mallocAt, hm, grow_eq hb hlay, hlb2]

end Arena

namespace Arena

/-- Frame property of one Arena::malloc call from a state whose active
index points at the last bucket (the invariant Arena::new establishes
and grow preserves): when the call returns (no panic), the invariant
still holds, the active index never decreases, and every bucket strictly
below the old active index is untouched. -/
theorem malloc_frame {allocOk : Bool} {newBase sizeT alignT size : Nat}
    {a a' : ArenaState} {r : Except CapacityError Nat}
    (hinv : a.index + 1 = a.buckets.length)
    (h : malloc allocOk newBase sizeT alignT size a = some (r, a')) :
    a'.index + 1 = a'.buckets.length ∧ a.index ≤ a'.index ∧
    ∀ j < a.index, a'.buckets.get? j = a.buckets.get? j := by
  have hlt : a.index < a.buckets.length := by omega
  obtain ⟨b, hb⟩ : ∃ b, a.buckets.get? a.index = some b := by
    rw [List.get?_eq_getElem?]
    exact ⟨_, List.getElem?_eq_getElem hlt⟩
  rcases hm : BucketImpl.malloc sizeT alignT size b with ⟨r0, b2⟩
  cases r0 with
  | ok off =>
    rw [malloc_ok_case hb hm] at h
    simp only [Option.some.injEq, Prod.mk.injEq] at h
    obtain ⟨-, ha'⟩ := h
    subst ha'
    refine ⟨by simpa using hinv, le_refl _, ?_⟩
    intro j hj
    show (a.buckets.set a.index b2).get? j = a.buckets.get? j
    simp only [List.get?_eq_getElem?]
    exact List.getElem?_set_ne (by omega)
  | error e =>
    have hm' : BucketImpl.malloc sizeT alignT size b =
        (Except.error CapacityError.mk, b) :=
      BucketImpl.malloc_fst_error (by rw [hm])
    simp only [malloc, last_bucket_some hb, mallocAt, hm'] at h
    cases hg : grow allocOk newBase a with
    | none => rw [hg] at h; simp at h
    | some a1 =>
      obtain ⟨hnew, ha1⟩ := grow_inv hg
      subst ha1
      have hget2 : (a.buckets ++
            [(⟨0, newBase, bucket_size a * 2⟩ : BucketState)]).get?
            (a.index + 1) =
          some ⟨0, newBase, bucket_size a * 2⟩ := by
        rw [List.get?_eq_getElem?, hinv]
        exact List.getElem?_concat_length _ _
      have hlb2 := last_bucket_some
        (a := ⟨a.index + 1,
               a.buckets ++ [(⟨0, newBase, bucket_size a * 2⟩ : BucketState)]⟩)
        hget2
      simp only [hg, hlb2, Option.some.injEq, Prod.mk.injEq] at h
      obtain ⟨-, ha'⟩ := h
      subst ha'
      refine ⟨by simp; omega, by simp, ?_⟩
      intro j hj
      show ((a.buckets ++ [(⟨0, newBase, bucket_size a * 2⟩ : BucketState)]).set
              (a.index + 1) _).get? j = a.buckets.get? j
      simp only [List.get?_eq_getElem?]
      rw [List.getElem?_set_ne (by omega), List.getElem?_append,
        if_pos (show j < a.buckets.length by omega)]

end Arena

/-- C3: when delegation to the active bucket fails with CapacityError,
the Arena performs exactly one growth step (the bucket list grows by
exactly one, the doubled bucket) and retries exactly once against the
new active bucket; the retry's result — including a CapacityError if
the retry also fails — is returned as is, with the bucket count still
increased by exactly 1, and growth is never repeated within the call.
Stated from any state whose active index points at the last bucket (the
invariant Arena::new establishes), with the doubled layout
representable and the raw allocation succeeding. -/
theorem claim_C3 (newBase sizeT alignT size : Nat) (a : ArenaState)
    (b : BucketState)
    (hb : a.buckets.get? a.index = some b)
    (hlast : a.index + 1 = a.buckets.length)
    (hfail : (BucketImpl.malloc sizeT alignT size b).1 =
      Except.error CapacityError.mk)
    (hlay : 8 + b.capacity * 2 ≤ USIZE_MAX - 7) :
    Arena.malloc true newBase sizeT alignT size a =
      some (Except.map (fun off => newBase + off)
              (BucketImpl.malloc sizeT alignT size
                ⟨0, newBase, b.capacity * 2⟩).1,
            (⟨a.index + 1,
              (a.buckets ++ [(⟨0, newBase, b.capacity * 2⟩ : BucketState)]).set
                (a.index + 1)
                (BucketImpl.malloc sizeT alignT size
                  (⟨0, newBase, b.capacity * 2⟩ : BucketState)).2⟩ :
              ArenaState)) ∧
    ((a.buckets ++ [(⟨0, newBase, b.capacity * 2⟩ : BucketState)]).set
        (a.index + 1)
        (BucketImpl.malloc sizeT alignT size
          (⟨0, newBase, b.capacity * 2⟩ : BucketState)).2).length =
      a.buckets.length + 1 :=
  ⟨Arena.malloc_grow_case hb hlast hfail hlay, by simp⟩

/-- C3 witness: a request for 2048 bytes against a full 512-byte bucket
grows the arena once to a 1024-byte bucket; the retry also fails, so
CapacityError is propagated and the final state still has exactly one
more bucket. -/
theorem claim_C3_witness :
    Arena.malloc true 4096 1 1 2048 ⟨0, [⟨512, 0, 512⟩]⟩ =
      some (Except.error CapacityError.mk,
            (⟨1, [⟨512, 0, 512⟩, ⟨0, 4096, 1024⟩]⟩ : ArenaState)) :=
  have h := claim_C3 4096 1 1 2048 ⟨0, [⟨512, 0, 512⟩]⟩ ⟨512, 0, 512⟩
    (by decide) (by decide) (by decide) (by decide)
  h.1.trans (by decide)

/-- C4: a growth step appends exactly one new bucket whose capacity is
exactly 2 times the capacity of the bucket that was active before the
growth, and advances active_index so that it points at the newly
appended bucket. -/
theorem claim_C4 (newBase : Nat) (a : ArenaState) (b : BucketState)
    (hb : a.buckets.get? a.index = some b)
    (hlast : a.index + 1 = a.buckets.length)
    (hlay : 8 + b.capacity * 2 ≤ USIZE_MAX - 7) :
    Arena.grow true newBase a =
      some ⟨a.index + 1,
            a.buckets ++ [(⟨0, newBase, b.capacity * 2⟩ : BucketState)]⟩ ∧
    (a.buckets ++ [(⟨0, newBase, b.capacity * 2⟩ : BucketState)]).get?
        (a.index + 1) =
      some ⟨0, newBase, b.capacity * 2⟩ :=
  ⟨Arena.grow_eq hb hlay, by
    rw [List.get?_eq_getElem?, hlast]
    exact List.getElem?_concat_length _ _⟩

/-- C4 witness: growing an arena whose active bucket has capacity 512
appends a bucket of capacity 1024 at the advanced active index. -/
theorem claim_C4_witness :
    Arena.grow true 4096 ⟨0, [⟨512, 0, 512⟩]⟩ =
      some ⟨0 + 1, [⟨512, 0, 512⟩] ++ [(⟨0, 4096, 512 * 2⟩ : BucketState)]⟩ :=
  (claim_C4 4096 ⟨0, [⟨512, 0, 512⟩]⟩ ⟨512, 0, 512⟩ (by decide) (by decide)
    (by decide)).1

/-- C8 counterexample: the claim "a raw allocation failure during
growth is returned to the caller of malloc as a typed error rather
than aborting the process" is false.  On a full 512-byte bucket a
1-byte request triggers growth; when the system allocator fails,
Arena::grow's `.unwrap()` panics — Arena::malloc does not return at
all (modelled as none), rather than returning Err of any kind. -/
theorem claim_C8_counterexample :
    Arena.malloc false 0 1 1 1 ⟨0, [⟨512, 0, 512⟩]⟩ = none := by
  decide

/-- C8 (amended): Bucket::new does surface raw-allocation failure as
the typed RawAllocError, but Arena::grow unwraps that Result, so a raw
allocation failure during growth panics (aborts) inside the malloc
call instead of being propagated as a typed error; Arena::malloc's
error type carries only CapacityError. -/
theorem claim_C8 (newBase sizeT alignT size : Nat) (a : ArenaState)
    (b : BucketState)
    (hb : a.buckets.get? a.index = some b)
    (hfail : (BucketImpl.malloc sizeT alignT size b).1 =
      Except.error CapacityError.mk) :
    Arena.malloc false newBase sizeT alignT size a = none ∧
    Bucket.new false newBase (Arena.bucket_size a * 2) =
      Except.error RawAllocError.mk := by
  refine ⟨?_, Bucket.new_false _ _⟩
  have hm := BucketImpl.malloc_fst_error hfail
  simp [Arena.malloc, Arena.last_bucket_some hb, Arena.mallocAt, hm,
    Arena.grow_false]

/-- C8 witness: a 600-byte u16 request against a full 512-byte bucket
with a failing system allocator makes Arena::malloc panic (none). -/
theorem claim_C8_witness :
    Arena.malloc false 7 2 2 300 ⟨0, [⟨512, 0, 512⟩]⟩ = none :=
  (claim_C8 7 2 2 300 ⟨0, [⟨512, 0, 512⟩]⟩ ⟨512, 0, 512⟩ (by decide)
    (by decide)).1

/-- C9: Arena::new eagerly allocates exactly one bucket of capacity
512 with the active index 0; it panics (none) instead of returning an
error when that initial allocation fails; and since the bucket list is
therefore never empty, the lazy-first-bucket branch in Arena::malloc
(entered only when last_bucket returns Some-of-None, i.e. the vector
is empty) is unreachable. -/
theorem claim_C9 :
    (∀ base : Nat, Arena.new true base = some ⟨0, [⟨0, base, 512⟩]⟩) ∧
    (∀ base : Nat, Arena.new false base = none) ∧
    (∀ a : ArenaState, a.buckets ≠ [] → Arena.last_bucket a ≠ some none) := by
  refine ⟨fun base => ?_, fun base => ?_, fun a hne => ?_⟩
  · simp [Arena.new, Bucket.new, BucketImpl.layout_from_size,
      show 8 + 512 ≤ USIZE_MAX - 7 by decide]
  · simp [Arena.new, Bucket.new_false]
  · have h : a.buckets.isEmpty = false := by
      cases hl : a.buckets
      · exact absurd hl hne
      · simp
    simp only [Arena.last_bucket, h]
    cases a.buckets.get? a.index <;> simp

/-- C9 witness: a fresh arena at base 64 is one 512-byte bucket with
active index 0, construction with a failing allocator panics, and
last_bucket on the fresh arena does not take the empty branch. -/
theorem claim_C9_witness :
    Arena.new true 64 = some ⟨0, [⟨0, 64, 512⟩]⟩ ∧
    Arena.new false 64 = none ∧
    Arena.last_bucket ⟨0, [⟨0, 64, 512⟩]⟩ ≠ some none :=
  ⟨claim_C9.1 64, claim_C9.2.1 64,
   claim_C9.2.2 ⟨0, [⟨0, 64, 512⟩]⟩ (by decide)⟩

/-- C10: allocations are only ever attempted against the bucket at
active_index; after any sequence of Arena::malloc calls (each of which,
on CapacityError, grows and moves the active index forward) the active
index never decreases and every bucket strictly below the original
active index is byte-for-byte untouched — an abandoned bucket never
receives another allocation attempt for the Arena's lifetime, even
when it still has unused bytes.  Stated for states satisfying the
invariant that the active index points at the last bucket. -/
theorem claim_C10 :
    ∀ (reqs : List (Nat × Nat × Nat × Nat)) (allocOk : Bool)
      (a a' : ArenaState),
      a.index + 1 = a.buckets.length →
      arenaRun allocOk reqs a = some a' →
      a'.index + 1 = a'.buckets.length ∧ a.index ≤ a'.index ∧
      ∀ j < a.index, a'.buckets.get? j = a.buckets.get? j
  | [], allocOk, a, a', hinv, hrun => by
    simp only [arenaRun, Option.some.injEq] at hrun
    subst hrun
    exact ⟨hinv, le_refl _, fun j hj => rfl⟩
  | (newBase, sizeT, alignT, count) :: rest, allocOk, a, a', hinv, hrun => by
    rw [arenaRun] at hrun
    split at hrun
    case _ r a1 hcall =>
      obtain ⟨h1, h2, h3⟩ := Arena.malloc_frame hinv hcall
      obtain ⟨ih1, ih2, ih3⟩ := claim_C10 rest allocOk a1 a' h1 hrun
      refine ⟨ih1, by omega, fun j hj => ?_⟩
      rw [ih3 j (by omega), h3 j hj]
    case _ hcall => exact absurd hrun (by simp)

/-- C10 witness: one oversized request on a one-bucket arena grows it;
the resulting state still has the active index on the last bucket and
bucket 0 is untouched. -/
theorem claim_C10_witness :
    (⟨1, [⟨512, 0, 512⟩, ⟨0, 4096, 1024⟩]⟩ : ArenaState).index + 1 =
      (⟨1, [⟨512, 0, 512⟩, ⟨0, 4096, 1024⟩]⟩ : ArenaState).buckets.length :=
  (claim_C10 [(4096, 1, 1, 2048)] true ⟨0, [⟨512, 0, 512⟩]⟩
    ⟨1, [⟨512, 0, 512⟩, ⟨0, 4096, 1024⟩]⟩ (by decide) (by decide)).1

end Arenalloc
